import Mathlib

/-!
Verification of the book-purchase backend (backend_server.py) against its
natural-language specification.

The server keeps three JSON documents: a pending-purchases list
(data/pending.json), a confirmed-purchases list (data/purchases.json) and an
aggregate-stats map (data/stats.json).  We embed the request handlers as pure
functions over a `ServerState` holding the three documents.  The random
confirmation code generated by `secrets.token_hex` and the wall-clock
timestamps are inputs of the embedded operations (an oracle), since the
handlers treat them as opaque strings.  Optional JSON fields are `Option`
arguments; Python falsiness of a missing or empty string id is `falsy`.
Prices are integers (the handlers never validate or round them).
-/

namespace LiveKitaab

/-- One purchase record, as stored in pending.json or purchases.json.
`confirmed_at` is absent (`none`) until the pending→confirmed transition. -/
structure Purchase where
  verification_code : String
  book_id : String
  price : Int
  transaction_id : String
  timestamp : String
  status : String
  confirmed_at : Option String := none
deriving Repr, DecidableEq

/-- Per-book aggregate counters (stats.json, one entry of the books map). -/
structure BookStats where
  total_downloads : Nat
  free_downloads : Nat
  paid_downloads : Nat
  revenue : Int
deriving Repr, DecidableEq

/-- The zeroed counters created on first reference to a book. -/
def emptyBookStats : BookStats :=
  { total_downloads := 0, free_downloads := 0, paid_downloads := 0, revenue := 0 }

/-- The whole stats.json document: a books map plus global totals. -/
structure Stats where
  books : List (String × BookStats)
  total_revenue : Int
  total_purchases : Nat
deriving Repr, DecidableEq

/-- Python dict lookup with the zeroed default used by the handlers. -/
def getBook (books : List (String × BookStats)) (book_id : String) : BookStats :=
  match books.find? (fun kv => kv.fst == book_id) with
  | some kv => kv.snd
  | none => emptyBookStats

/-- Python dict update: replace the entry in place if the key exists,
otherwise append a fresh entry. -/
def setBook (books : List (String × BookStats)) (book_id : String) (v : BookStats) :
    List (String × BookStats) :=
  match books with
  | [] => [(book_id, v)]
  | kv :: rest =>
      if kv.fst == book_id then (book_id, v) :: rest
      else kv :: setBook rest book_id v

/-- The full server state: the three persisted documents. -/
structure ServerState where
  pending : List Purchase
  confirmed : List Purchase
  stats : Stats
deriving Repr, DecidableEq

/-- The state after init_stats on a fresh data directory. -/
def initialState : ServerState :=
  { pending := [], confirmed := [],
    stats := { books := [], total_revenue := 0, total_purchases := 0 } }

/-- The server-held shared admin secret. -/
def ADMIN_KEY : String := "LiveKitaabAdminHaiAC@2014"

/-- Python falsiness of an optional string field: absent or empty. -/
def falsy : Option String → Bool
  | none => true
  | some s => s == ""

/-- update_stats: lazily create the book entry, bump paid_downloads and
revenue for the book, and the global totals. -/
def update_stats (st : Stats) (book_id : String) (price : Int) : Stats :=
  let bs := getBook st.books book_id
  let bs2 := { bs with paid_downloads := bs.paid_downloads + 1,
                       revenue := bs.revenue + price }
  { books := setBook st.books book_id bs2,
    total_purchases := st.total_purchases + 1,
    total_revenue := st.total_revenue + price }

/-- Outcome of POST /api/request-purchase. -/
inductive SubmitResult where
  | missingFields
  | duplicateTransaction
  | ok (verification_code : String)
deriving Repr, DecidableEq

/-- The pending record appended by a successful request_purchase. -/
def mkPendingRecord (code book_id : String) (price : Int) (transaction_id now : String) :
    Purchase :=
  { verification_code := code, book_id := book_id, price := price,
    transaction_id := transaction_id, timestamp := now, status := "pending",
    confirmed_at := none }

/-- request_purchase: reject missing fields, then reject a transaction_id
already present in the confirmed collection (pending is not consulted),
otherwise append a fresh pending record carrying the generated code. -/
def request_purchase (s : ServerState) (book_id : Option String) (price : Option Int)
    (transaction_id : Option String) (code now : String) : SubmitResult × ServerState :=
  if falsy book_id || falsy transaction_id then (.missingFields, s)
  else
    let bid := book_id.getD ""
    let tid := transaction_id.getD ""
    let p := price.getD 0
    if s.confirmed.any (fun pu => pu.transaction_id == tid) then
      (.duplicateTransaction, s)
    else
      (.ok code, { s with pending := s.pending ++ [mkPendingRecord code bid p tid now] })

/-- Outcome of POST /api/verify-purchase. -/
inductive ConfirmResult where
  | unauthorized
  | missingCode
  | notFound
  | ok (book_id transaction_id : String)
deriving Repr, DecidableEq

/-- A durable write of one whole document, in the order the handler issues
them (each save_json call is one `Write`). -/
inductive Write where
  | wPending (doc : List Purchase)
  | wPurchases (doc : List Purchase)
  | wStats (doc : Stats)
deriving Repr, DecidableEq

/-- Apply one durable write to the stored state. -/
def applyWrite (s : ServerState) : Write → ServerState
  | .wPending d => { s with pending := d }
  | .wPurchases d => { s with confirmed := d }
  | .wStats d => { s with stats := d }

/-- Apply a sequence of durable writes in order. -/
def applyWrites (s : ServerState) (ws : List Write) : ServerState :=
  ws.foldl applyWrite s

/-- verify_purchase as (response, ordered list of durable writes).  The scan
of the pending list keeps every non-matching record in `remaining` and lets
the last matching record win as purchase_to_verify.  On success the handler
saves purchases.json (with the confirmed record appended), then pending.json
(without any matching record), then stats.json via update_stats. -/
def verify_purchase_core (s : ServerState) (verification_code admin_key : Option String)
    (now : String) : ConfirmResult × List Write :=
  if admin_key ≠ some ADMIN_KEY then (.unauthorized, [])
  else if falsy verification_code then (.missingCode, [])
  else
    let code := verification_code.getD ""
    let hits := s.pending.filter (fun p => p.verification_code == code)
    let remaining := s.pending.filter (fun p => !(p.verification_code == code))
    match hits.getLast? with
    | none => (.notFound, [])
    | some ptv =>
        let ptv2 := { ptv with status := "confirmed", confirmed_at := some now }
        (.ok ptv2.book_id ptv2.transaction_id,
         [Write.wPurchases (s.confirmed ++ [ptv2]),
          Write.wPending remaining,
          Write.wStats (update_stats s.stats ptv2.book_id ptv2.price)])

/-- verify_purchase: the response together with the state after all three
durable writes have been applied. -/
def verify_purchase (s : ServerState) (verification_code admin_key : Option String)
    (now : String) : ConfirmResult × ServerState :=
  let rw := verify_purchase_core s verification_code admin_key now
  (rw.fst, applyWrites s rw.snd)

/-- Outcome of POST /api/reject-purchase. -/
inductive RejectResult where
  | unauthorized
  | missingCode
  | notFound
  | ok
deriving Repr, DecidableEq

/-- reject_purchase: drop every pending record carrying the code; 404 when
nothing matched; the confirmed collection is untouched. -/
def reject_purchase (s : ServerState) (verification_code admin_key : Option String) :
    RejectResult × ServerState :=
  if admin_key ≠ some ADMIN_KEY then (.unauthorized, s)
  else if falsy verification_code then (.missingCode, s)
  else
    let code := verification_code.getD ""
    let remaining := s.pending.filter (fun p => !(p.verification_code == code))
    if remaining.length = s.pending.length then (.notFound, s)
    else (.ok, { s with pending := remaining })

/-- Outcome of POST /api/check-purchase. -/
inductive CheckResult where
  | missingFields
  | purchased (confirmed_at : Option String)
  | pendingWithCode (verification_code : String)
  | notFound
deriving Repr, DecidableEq

/-- check_purchase: first confirmed record matching book, transaction and
status confirmed; else first pending record matching book and transaction,
revealing its code; else not_found. -/
def check_purchase (s : ServerState) (book_id transaction_id : Option String) : CheckResult :=
  if falsy book_id || falsy transaction_id then .missingFields
  else
    let bid := book_id.getD ""
    let tid := transaction_id.getD ""
    match s.confirmed.find? (fun p =>
        p.book_id == bid && p.transaction_id == tid && p.status == "confirmed") with
    | some p => .purchased p.confirmed_at
    | none =>
        match s.pending.find? (fun p => p.book_id == bid && p.transaction_id == tid) with
        | some p => .pendingWithCode p.verification_code
        | none => .notFound

/-- Outcome of POST /api/poll-purchase (always HTTP 200). -/
inductive PollResult where
  | missingParams
  | approved
  | stillPending
  | codeNotFound
deriving Repr, DecidableEq

/-- poll_purchase: approved when a confirmed record matches code, book and
status; else pending when any pending record carries the code (the book is
not consulted on this branch); else not_found. -/
def poll_purchase (s : ServerState) (verification_code book_id : Option String) : PollResult :=
  if falsy verification_code || falsy book_id then .missingParams
  else
    let code := verification_code.getD ""
    let bid := book_id.getD ""
    if s.confirmed.any (fun p =>
        p.verification_code == code && p.book_id == bid && p.status == "confirmed") then
      .approved
    else if s.pending.any (fun p => p.verification_code == code) then
      .stillPending
    else
      .codeNotFound

/-- Outcome of POST /api/track-download. -/
inductive TrackResult where
  | missingBookId
  | ok
deriving Repr, DecidableEq

/-- track_download: lazily create the book entry, bump total_downloads and
one of free_downloads / paid_downloads. -/
def track_download (s : ServerState) (book_id : Option String) (is_free : Option Bool) :
    TrackResult × ServerState :=
  if falsy book_id then (.missingBookId, s)
  else
    let bid := book_id.getD ""
    let free := is_free.getD false
    let bs := getBook s.stats.books bid
    let bs1 := { bs with total_downloads := bs.total_downloads + 1 }
    let bs2 :=
      if free then { bs1 with free_downloads := bs1.free_downloads + 1 }
      else { bs1 with paid_downloads := bs1.paid_downloads + 1 }
    (.ok, { s with stats := { s.stats with books := setBook s.stats.books bid bs2 } })

/-! ### Request sequences and monotonicity order on the stats -/

/-- One mutating request together with its oracle inputs (generated code,
timestamp). -/
inductive Op where
  | submit (book_id : Option String) (price : Option Int) (transaction_id : Option String)
      (code now : String)
  | confirm (verification_code admin_key : Option String) (now : String)
  | reject (verification_code admin_key : Option String)
  | track (book_id : Option String) (is_free : Option Bool)
deriving Repr, DecidableEq

/-- The state after handling one request. -/
def stepOp (s : ServerState) : Op → ServerState
  | .submit b p t c n => (request_purchase s b p t c n).snd
  | .confirm vc ak n => (verify_purchase s vc ak n).snd
  | .reject vc ak => (reject_purchase s vc ak).snd
  | .track b f => (track_download s b f).snd

/-- The state after handling a sequence of requests, in order. -/
def runOps (s : ServerState) (ops : List Op) : ServerState :=
  ops.foldl stepOp s

/-- Pointwise order on all per-book counters, revenue included. -/
def bookLE (a b : BookStats) : Prop :=
  a.total_downloads ≤ b.total_downloads ∧ a.free_downloads ≤ b.free_downloads ∧
  a.paid_downloads ≤ b.paid_downloads ∧ a.revenue ≤ b.revenue

/-- Every aggregate quantity of a is at most the one of b. -/
def statsLE (a b : Stats) : Prop :=
  (∀ k : String, bookLE (getBook a.books k) (getBook b.books k)) ∧
  a.total_revenue ≤ b.total_revenue ∧ a.total_purchases ≤ b.total_purchases

/-- The download counters of a are at most those of b (revenue not
compared). -/
def countersLE (a b : Stats) : Prop :=
  (∀ k : String,
      (getBook a.books k).total_downloads ≤ (getBook b.books k).total_downloads ∧
      (getBook a.books k).free_downloads ≤ (getBook b.books k).free_downloads ∧
      (getBook a.books k).paid_downloads ≤ (getBook b.books k).paid_downloads) ∧
  a.total_purchases ≤ b.total_purchases

/-- Every stored pending record carries a non-negative price. -/
def pendingNonneg (s : ServerState) : Prop := ∀ p ∈ s.pending, 0 ≤ p.price

/-- The request does not submit a negative price. -/
def opPriceNonneg : Op → Prop
  | .submit _ p _ _ _ => 0 ≤ p.getD 0
  | _ => True

/-- The state reached by submitting a purchase with the (never validated)
negative price -5. -/
def sNeg : ServerState :=
  (request_purchase initialState (some "b1") (some (-5)) (some "t1") "AA11" "T0").snd

/-! ### Concrete states used by witnesses and counterexamples -/

/-- p is the same purchase attempt as r: the identifying fields agree (the
status and confirmed_at fields are the ones rewritten by the
pending→confirmed move). -/
def sameAttempt (r p : Purchase) : Prop :=
  p.verification_code = r.verification_code ∧ p.book_id = r.book_id ∧
  p.transaction_id = r.transaction_id ∧ p.price = r.price

/-- The attempt r has a record in at least one of the two stored
collections. -/
def attemptPresent (r : Purchase) (s : ServerState) : Prop :=
  (∃ p ∈ s.pending, sameAttempt r p) ∨ (∃ p ∈ s.confirmed, sameAttempt r p)

/-- A state with one confirmed record, used to exercise the duplicate check. -/
def sDup : ServerState :=
  { initialState with
    confirmed := [{ verification_code := "C0", book_id := "b1", price := 5,
                    transaction_id := "t1", timestamp := "T0", status := "confirmed",
                    confirmed_at := some "T1" }] }

/-- A single pending record used as concrete input to the confirm claims. -/
def rOne : Purchase := mkPendingRecord "AB12" "b1" 5 "t1" "T0"

/-- A state whose only pending record is rOne. -/
def sOne : ServerState := { initialState with pending := [rOne] }

/-- Two pending records sharing the confirmation code DD77. -/
def sColl : ServerState :=
  { initialState with
    pending := [mkPendingRecord "DD77" "b1" 5 "t1" "T0",
                mkPendingRecord "DD77" "b2" 7 "t2" "T0"] }

/-- A state with one pending record whose book differs from the polled one,
exercising the pending-branch asymmetry. -/
def sAsym : ServerState :=
  { initialState with pending := [mkPendingRecord "EE55" "bookX" 1 "tx" "T0"] }

/-- A state with one confirmed and one pending record for different
transactions, used to exercise check_purchase. -/
def sCheck : ServerState :=
  { initialState with
    pending := [mkPendingRecord "FF44" "b1" 9 "t2" "T2"],
    confirmed := [{ verification_code := "C0", book_id := "b1", price := 5,
                    transaction_id := "t1", timestamp := "T0", status := "confirmed",
                    confirmed_at := some "T1" }] }

/-! ### Helper lemmas about the stats map -/

theorem getBook_setBook_self (books : List (String × BookStats)) (k : String) (v : BookStats) :
    getBook (setBook books k v) k = v := by
  induction books with
  | nil => simp [setBook, getBook]
  | cons kv rest ih =>
      by_cases h : kv.fst = k
      · simp [setBook, getBook, h]
      · simpa [setBook, getBook, h] using ih

theorem getBook_setBook_ne (books : List (String × BookStats)) (k k2 : String) (v : BookStats)
    (h : k2 ≠ k) : getBook (setBook books k v) k2 = getBook books k2 := by
  induction books with
  | nil => simp [setBook, getBook, Ne.symm h]
  | cons kv rest ih =>
      by_cases hk : kv.fst = k
      · simp [setBook, getBook, hk, List.find?_cons, Ne.symm h]
      · by_cases h2 : kv.fst = k2
        · simp [setBook, getBook, hk, h2, h, List.find?_cons]
        · simp only [setBook, hk]
          simpa [getBook, List.find?_cons, h2, hk] using ih

theorem update_stats_book_self (st : Stats) (b : String) (pr : Int) :
    getBook (update_stats st b pr).books b =
      { getBook st.books b with
          paid_downloads := (getBook st.books b).paid_downloads + 1,
          revenue := (getBook st.books b).revenue + pr } := by
  simp [update_stats, getBook_setBook_self]

theorem update_stats_book_ne (st : Stats) (b k : String) (pr : Int) (h : k ≠ b) :
    getBook (update_stats st b pr).books k = getBook st.books k := by
  simp [update_stats, getBook_setBook_ne _ _ _ _ h]

theorem update_stats_totals (st : Stats) (b : String) (pr : Int) :
    (update_stats st b pr).total_purchases = st.total_purchases + 1 ∧
    (update_stats st b pr).total_revenue = st.total_revenue + pr := by
  simp [update_stats]

/-! ### Helper lemmas about the confirm handler -/

theorem verify_purchase_core_ok (s : ServerState) (c now : String) (r : Purchase)
    (hc : c ≠ "")
    (hlast : (s.pending.filter (fun p => p.verification_code == c)).getLast? = some r) :
    verify_purchase_core s (some c) (some ADMIN_KEY) now =
      (ConfirmResult.ok r.book_id r.transaction_id,
       [Write.wPurchases
          (s.confirmed ++ [{ r with status := "confirmed", confirmed_at := some now }]),
        Write.wPending (s.pending.filter (fun p => !(p.verification_code == c))),
        Write.wStats (update_stats s.stats r.book_id r.price)]) := by
  unfold verify_purchase_core
  simp [falsy, hc, hlast]

theorem verify_purchase_ok (s : ServerState) (c now : String) (r : Purchase)
    (hc : c ≠ "")
    (hlast : (s.pending.filter (fun p => p.verification_code == c)).getLast? = some r) :
    verify_purchase s (some c) (some ADMIN_KEY) now =
      (ConfirmResult.ok r.book_id r.transaction_id,
       { pending := s.pending.filter (fun p => !(p.verification_code == c)),
         confirmed := s.confirmed ++ [{ r with status := "confirmed", confirmed_at := some now }],
         stats := update_stats s.stats r.book_id r.price }) := by
  unfold verify_purchase
  rw [verify_purchase_core_ok s c now r hc hlast]
  simp [applyWrites, applyWrite]

theorem verify_purchase_notFound (s : ServerState) (c now : String)
    (hc : c ≠ "")
    (hnone : s.pending.filter (fun p => p.verification_code == c) = []) :
    verify_purchase s (some c) (some ADMIN_KEY) now = (ConfirmResult.notFound, s) := by
  unfold verify_purchase verify_purchase_core
  simp [falsy, hc, hnone, applyWrites]

/-! ### C2: duplicate-transaction check scans only the confirmed collection -/

/-- C2: for every well-formed submission, request_purchase fails with
DuplicateTransaction exactly when the transaction_id already appears in a
confirmed record, regardless of price and item id; and since the pending
collection is not consulted, two submissions with the same transaction_id,
neither yet confirmed, both succeed. -/
theorem submit_duplicate_scans_only_confirmed
    (s : ServerState) (bid tid : String) (pr1 pr2 : Option Int) (c1 c2 n1 n2 : String)
    (hb : bid ≠ "") (ht : tid ≠ "") :
    ((request_purchase s (some bid) pr1 (some tid) c1 n1).fst = SubmitResult.duplicateTransaction
        ↔ ∃ p ∈ s.confirmed, p.transaction_id = tid) ∧
    ((¬ ∃ p ∈ s.confirmed, p.transaction_id = tid) →
      ∃ s1 : ServerState,
        request_purchase s (some bid) pr1 (some tid) c1 n1 = (SubmitResult.ok c1, s1) ∧
        (request_purchase s1 (some bid) pr2 (some tid) c2 n2).fst = SubmitResult.ok c2) := by
  have hany : (s.confirmed.any (fun pu => pu.transaction_id == tid)) = true ↔
      ∃ p ∈ s.confirmed, p.transaction_id = tid := by
    simp [List.any_eq_true]
  constructor
  · by_cases h : s.confirmed.any (fun pu => pu.transaction_id == tid)
    · simp [request_purchase, falsy, hb, ht, h, hany.mp h]
    · have hno : ¬ ∃ p ∈ s.confirmed, p.transaction_id = tid := fun hx => h (hany.mpr hx)
      simp only [Bool.not_eq_true] at h
      simp [request_purchase, falsy, hb, ht, h, hno]
  · intro hnd
    have h : (s.confirmed.any (fun pu => pu.transaction_id == tid)) = false := by
      rcases Bool.eq_false_or_eq_true (s.confirmed.any (fun pu => pu.transaction_id == tid)) with
        htr | hf
      · exact absurd (hany.mp htr) hnd
      · exact hf
    refine ⟨{ s with pending := s.pending ++ [mkPendingRecord c1 bid (pr1.getD 0) tid n1] },
      ?_, ?_⟩
    · simp [request_purchase, falsy, hb, ht, h]
    · simp [request_purchase, falsy, hb, ht, h]

/-- Witness for C2 at a concrete state holding a confirmed record for t1. -/
theorem submit_duplicate_scans_only_confirmed_witness :
    ((request_purchase sDup (some "b2") (some 3) (some "t1") "C9" "T2").fst
        = SubmitResult.duplicateTransaction ↔ ∃ p ∈ sDup.confirmed, p.transaction_id = "t1") ∧
    ((¬ ∃ p ∈ sDup.confirmed, p.transaction_id = "t1") →
      ∃ s1 : ServerState,
        request_purchase sDup (some "b2") (some 3) (some "t1") "C9" "T2" =
          (SubmitResult.ok "C9", s1) ∧
        (request_purchase s1 (some "b2") (some 4) (some "t1") "CA" "T3").fst
          = SubmitResult.ok "CA") :=
  submit_duplicate_scans_only_confirmed sDup "b2" "t1" (some 3) (some 4) "C9" "CA" "T2" "T3"
    (by decide) (by decide)

/-! ### C10: a missing price defaults to 0 -/

/-- C10: submit succeeds even when the price field is absent from the
request: only item id and transaction id are required, and the missing price
is stored in the new pending record as 0 rather than causing a failure. -/
theorem submit_missing_price_stored_as_zero
    (s : ServerState) (bid tid c now : String) (hb : bid ≠ "") (ht : tid ≠ "")
    (hdup : ∀ p ∈ s.confirmed, p.transaction_id ≠ tid) :
    request_purchase s (some bid) none (some tid) c now =
      (SubmitResult.ok c,
       { s with pending := s.pending ++ [mkPendingRecord c bid 0 tid now] }) := by
  have h : (s.confirmed.any (fun pu => pu.transaction_id == tid)) = false := by
    simp only [List.any_eq_false, beq_iff_eq]
    exact hdup
  simp [request_purchase, falsy, hb, ht, h]

/-- Witness for C10: a priceless submission on the initial state stores
price 0. -/
theorem submit_missing_price_stored_as_zero_witness :
    request_purchase initialState (some "b1") none (some "t1") "C0" "T0" =
      (SubmitResult.ok "C0",
       { initialState with pending := [mkPendingRecord "C0" "b1" 0 "t1" "T0"] }) := by
  have h := submit_missing_price_stored_as_zero initialState "b1" "t1" "C0" "T0"
    (by decide) (by decide) (by simp [initialState])
  simpa [initialState] using h

/-! ### C4: confirm is not idempotent -/

/-- C4: for a confirmation code held by exactly one pending record, the
first confirm succeeds and returns that record's ids, and a subsequent
confirm with the same code fails with NotFound and leaves the state
unchanged (hence every later call also fails with NotFound): success removed
the record from the pending collection. -/
theorem confirm_not_idempotent
    (s : ServerState) (r : Purchase) (c n1 n2 : String) (hc : c ≠ "")
    (huniq : s.pending.filter (fun p => p.verification_code == c) = [r]) :
    ∃ s1 : ServerState,
      verify_purchase s (some c) (some ADMIN_KEY) n1 =
        (ConfirmResult.ok r.book_id r.transaction_id, s1) ∧
      verify_purchase s1 (some c) (some ADMIN_KEY) n2 = (ConfirmResult.notFound, s1) := by
  have hlast : (s.pending.filter (fun p => p.verification_code == c)).getLast? = some r := by
    rw [huniq]; rfl
  refine ⟨_, verify_purchase_ok s c n1 r hc hlast, ?_⟩
  apply verify_purchase_notFound _ c n2 hc
  show (s.pending.filter (fun p => !(p.verification_code == c))).filter
      (fun p => p.verification_code == c) = []
  rw [List.filter_filter]
  simp

/-- Witness for C4 on the one-record state. -/
theorem confirm_not_idempotent_witness :
    ∃ s1 : ServerState,
      verify_purchase sOne (some "AB12") (some ADMIN_KEY) "T1" =
        (ConfirmResult.ok "b1" "t1", s1) ∧
      verify_purchase s1 (some "AB12") (some ADMIN_KEY) "T2" =
        (ConfirmResult.notFound, s1) :=
  confirm_not_idempotent sOne rOne "AB12" "T1" "T2" (by decide) (by decide)

/-! ### C3: a successful confirm increments the aggregate stats -/

/-- C3: when a confirm succeeds and moves the pending record r (book X at
price P), AggregateStats for X gains exactly 1 paid download and exactly P
revenue, and the global totals gain 1 purchase and P revenue. -/
theorem confirm_increments_stats
    (s : ServerState) (r : Purchase) (c now : String) (hc : c ≠ "")
    (hlast : (s.pending.filter (fun p => p.verification_code == c)).getLast? = some r) :
    ∃ s2 : ServerState,
      verify_purchase s (some c) (some ADMIN_KEY) now =
        (ConfirmResult.ok r.book_id r.transaction_id, s2) ∧
      (getBook s2.stats.books r.book_id).paid_downloads
        = (getBook s.stats.books r.book_id).paid_downloads + 1 ∧
      (getBook s2.stats.books r.book_id).revenue
        = (getBook s.stats.books r.book_id).revenue + r.price ∧
      s2.stats.total_purchases = s.stats.total_purchases + 1 ∧
      s2.stats.total_revenue = s.stats.total_revenue + r.price := by
  refine ⟨_, verify_purchase_ok s c now r hc hlast, ?_, ?_, ?_, ?_⟩
  · show (getBook (update_stats s.stats r.book_id r.price).books r.book_id).paid_downloads = _
    rw [update_stats_book_self]
  · show (getBook (update_stats s.stats r.book_id r.price).books r.book_id).revenue = _
    rw [update_stats_book_self]
  · exact (update_stats_totals s.stats r.book_id r.price).1
  · exact (update_stats_totals s.stats r.book_id r.price).2

/-- Witness for C3 on the one-record state. -/
theorem confirm_increments_stats_witness :
    ∃ s2 : ServerState,
      verify_purchase sOne (some "AB12") (some ADMIN_KEY) "T1" =
        (ConfirmResult.ok "b1" "t1", s2) ∧
      (getBook s2.stats.books "b1").paid_downloads
        = (getBook sOne.stats.books "b1").paid_downloads + 1 ∧
      (getBook s2.stats.books "b1").revenue
        = (getBook sOne.stats.books "b1").revenue + 5 ∧
      s2.stats.total_purchases = sOne.stats.total_purchases + 1 ∧
      s2.stats.total_revenue = sOne.stats.total_revenue + 5 :=
  confirm_increments_stats sOne rOne "AB12" "T1" (by decide) (by decide)

/-! ### C5: write ordering in confirm never loses the record -/

/-- C5: a successful confirm issues its durable writes in the order
append-to-confirmed, then replace-pending, then stats, and after every
prefix of that write sequence (every crash point) the moved record is
present in pending or confirmed — a mid-sequence interruption leaves it
duplicated, never lost. -/
theorem confirm_write_order_never_lost
    (s : ServerState) (r : Purchase) (c now : String) (hc : c ≠ "")
    (hlast : (s.pending.filter (fun p => p.verification_code == c)).getLast? = some r) :
    ∃ dp : List Purchase, ∃ dst : Stats,
      (verify_purchase_core s (some c) (some ADMIN_KEY) now).snd =
        [Write.wPurchases
           (s.confirmed ++ [{ r with status := "confirmed", confirmed_at := some now }]),
         Write.wPending dp,
         Write.wStats dst] ∧
      ∀ k : Nat,
        attemptPresent r
          (applyWrites s
            (((verify_purchase_core s (some c) (some ADMIN_KEY) now).snd).take k)) := by
  have hcore := verify_purchase_core_ok s c now r hc hlast
  have hmem : r ∈ s.pending :=
    List.mem_of_mem_filter (List.mem_of_mem_getLast? hlast)
  refine ⟨s.pending.filter (fun p => !(p.verification_code == c)),
          update_stats s.stats r.book_id r.price, by rw [hcore], ?_⟩
  intro k
  rw [hcore]
  match k with
  | 0 => exact Or.inl ⟨r, hmem, rfl, rfl, rfl, rfl⟩
  | 1 =>
      refine Or.inr ⟨{ r with status := "confirmed", confirmed_at := some now }, ?_,
        rfl, rfl, rfl, rfl⟩
      simp [applyWrites, applyWrite]
  | 2 =>
      refine Or.inr ⟨{ r with status := "confirmed", confirmed_at := some now }, ?_,
        rfl, rfl, rfl, rfl⟩
      simp [applyWrites, applyWrite]
  | (n + 3) =>
      refine Or.inr ⟨{ r with status := "confirmed", confirmed_at := some now }, ?_,
        rfl, rfl, rfl, rfl⟩
      simp [applyWrites, applyWrite]

/-- Witness for C5 on the one-record state. -/
theorem confirm_write_order_never_lost_witness :
    ∃ dp : List Purchase, ∃ dst : Stats,
      (verify_purchase_core sOne (some "AB12") (some ADMIN_KEY) "T1").snd =
        [Write.wPurchases
           (sOne.confirmed ++ [{ rOne with status := "confirmed", confirmed_at := some "T1" }]),
         Write.wPending dp,
         Write.wStats dst] ∧
      ∀ k : Nat,
        attemptPresent rOne
          (applyWrites sOne
            (((verify_purchase_core sOne (some "AB12") (some ADMIN_KEY) "T1").snd).take k)) :=
  confirm_write_order_never_lost sOne rOne "AB12" "T1" (by decide) (by decide)

/-! ### C9: duplicated confirmation codes lose records on confirm -/

/-- C9: when several pending records carry the same code, one confirm call
removes all of them from pending (none is left matching), appends only the
last matching record to confirmed (exactly one new record), and the overall
number of stored records strictly drops: the other matching records are
silently lost from both collections. -/
theorem duplicate_code_confirm_loses_records
    (s : ServerState) (r : Purchase) (c now : String) (hc : c ≠ "")
    (hlast : (s.pending.filter (fun p => p.verification_code == c)).getLast? = some r)
    (hdup : 2 ≤ (s.pending.filter (fun p => p.verification_code == c)).length) :
    ∃ s2 : ServerState,
      verify_purchase s (some c) (some ADMIN_KEY) now =
        (ConfirmResult.ok r.book_id r.transaction_id, s2) ∧
      s2.pending = s.pending.filter (fun p => !(p.verification_code == c)) ∧
      s2.confirmed =
        s.confirmed ++ [{ r with status := "confirmed", confirmed_at := some now }] ∧
      s2.pending.countP (fun p => p.verification_code == c) = 0 ∧
      s2.confirmed.countP (fun p => p.verification_code == c) =
        s.confirmed.countP (fun p => p.verification_code == c) + 1 ∧
      s2.pending.length + s2.confirmed.length < s.pending.length + s.confirmed.length := by
  have hrc : (r.verification_code == c) = true :=
    (List.mem_filter.mp (List.mem_of_mem_getLast? hlast)).2
  refine ⟨_, verify_purchase_ok s c now r hc hlast, rfl, rfl, ?_, ?_, ?_⟩
  · show ((s.pending.filter (fun p : Purchase => !(p.verification_code == c))).countP
      (fun p : Purchase => p.verification_code == c)) = 0
    rw [List.countP_eq_length_filter, List.filter_filter]
    simp
  · show ((s.confirmed ++ [{ r with status := "confirmed", confirmed_at := some now }]).countP
      (fun p : Purchase => p.verification_code == c)) =
      s.confirmed.countP (fun p : Purchase => p.verification_code == c) + 1
    rw [List.countP_append]
    simp [List.countP_cons, hrc]
  · show (s.pending.filter (fun p : Purchase => !(p.verification_code == c))).length +
        (s.confirmed ++ [{ r with status := "confirmed", confirmed_at := some now }]).length <
      s.pending.length + s.confirmed.length
    have hsplit :
        (s.pending.filter (fun p => p.verification_code == c)).length +
          (s.pending.filter (fun p => !(p.verification_code == c))).length =
        s.pending.length := by
      have := (List.filter_append_perm (fun p => p.verification_code == c) s.pending).length_eq
      simpa using this
    simp only [List.length_append, List.length_cons, List.length_nil]
    omega

/-- Witness for C9 on the colliding-code state. -/
theorem duplicate_code_confirm_loses_records_witness :
    ∃ s2 : ServerState,
      verify_purchase sColl (some "DD77") (some ADMIN_KEY) "T1" =
        (ConfirmResult.ok "b2" "t2", s2) ∧
      s2.pending = sColl.pending.filter (fun p => !(p.verification_code == "DD77")) ∧
      s2.confirmed =
        sColl.confirmed ++
          [{ mkPendingRecord "DD77" "b2" 7 "t2" "T0" with
              status := "confirmed", confirmed_at := some "T1" }] ∧
      s2.pending.countP (fun p => p.verification_code == "DD77") = 0 ∧
      s2.confirmed.countP (fun p => p.verification_code == "DD77") =
        sColl.confirmed.countP (fun p => p.verification_code == "DD77") + 1 ∧
      s2.pending.length + s2.confirmed.length < sColl.pending.length + sColl.confirmed.length :=
  duplicate_code_confirm_loses_records sColl (mkPendingRecord "DD77" "b2" 7 "t2" "T0")
    "DD77" "T1" (by decide) (by decide) (by decide)

/-! ### C6: poll characterization and its pending-branch asymmetry -/

/-- C6: poll returns approved exactly when a confirmed record matches both
the code and the book; otherwise it reports pending exactly when any
pending record carries the code, the book being ignored on that branch (so
a pending record for a different book still polls as pending); otherwise it
reports not_found. -/
theorem poll_characterization
    (s : ServerState) (c b : String) (hc : c ≠ "") (hb : b ≠ "") :
    (poll_purchase s (some c) (some b) = PollResult.approved ↔
       ∃ p ∈ s.confirmed,
         p.verification_code = c ∧ p.book_id = b ∧ p.status = "confirmed") ∧
    (poll_purchase s (some c) (some b) = PollResult.stillPending ↔
       ((¬ ∃ p ∈ s.confirmed,
           p.verification_code = c ∧ p.book_id = b ∧ p.status = "confirmed") ∧
        ∃ p ∈ s.pending, p.verification_code = c)) ∧
    (poll_purchase s (some c) (some b) = PollResult.codeNotFound ↔
       ((¬ ∃ p ∈ s.confirmed,
           p.verification_code = c ∧ p.book_id = b ∧ p.status = "confirmed") ∧
        ¬ ∃ p ∈ s.pending, p.verification_code = c)) := by
  have h1 : (s.confirmed.any (fun p =>
      p.verification_code == c && p.book_id == b && p.status == "confirmed")) = true ↔
      ∃ p ∈ s.confirmed, p.verification_code = c ∧ p.book_id = b ∧ p.status = "confirmed" := by
    simp [List.any_eq_true, and_assoc]
  have h2 : (s.pending.any (fun p => p.verification_code == c)) = true ↔
      ∃ p ∈ s.pending, p.verification_code = c := by
    simp [List.any_eq_true]
  by_cases hA : (s.confirmed.any (fun p =>
      p.verification_code == c && p.book_id == b && p.status == "confirmed")) = true
  · have hE1 := h1.mp hA
    simp [poll_purchase, falsy, hc, hb, hA, hE1]
  · have hnE1 : ¬ ∃ p ∈ s.confirmed,
        p.verification_code = c ∧ p.book_id = b ∧ p.status = "confirmed" :=
      fun hx => hA (h1.mpr hx)
    simp only [Bool.not_eq_true] at hA
    by_cases hB : (s.pending.any (fun p => p.verification_code == c)) = true
    · have hE2 := h2.mp hB
      simp [poll_purchase, falsy, hc, hb, hA, hB, hnE1, hE2]
    · have hnE2 : ¬ ∃ p ∈ s.pending, p.verification_code = c :=
        fun hx => hB (h2.mpr hx)
      simp only [Bool.not_eq_true] at hB
      simp [poll_purchase, falsy, hc, hb, hA, hB, hnE1, hnE2]

/-- Witness for C6: polling code EE55 with the other book bookY still
reports pending. -/
theorem poll_characterization_witness :
    (poll_purchase sAsym (some "EE55") (some "bookY") = PollResult.approved ↔
       ∃ p ∈ sAsym.confirmed,
         p.verification_code = "EE55" ∧ p.book_id = "bookY" ∧ p.status = "confirmed") ∧
    (poll_purchase sAsym (some "EE55") (some "bookY") = PollResult.stillPending ↔
       ((¬ ∃ p ∈ sAsym.confirmed,
           p.verification_code = "EE55" ∧ p.book_id = "bookY" ∧ p.status = "confirmed") ∧
        ∃ p ∈ sAsym.pending, p.verification_code = "EE55")) ∧
    (poll_purchase sAsym (some "EE55") (some "bookY") = PollResult.codeNotFound ↔
       ((¬ ∃ p ∈ sAsym.confirmed,
           p.verification_code = "EE55" ∧ p.book_id = "bookY" ∧ p.status = "confirmed") ∧
        ¬ ∃ p ∈ sAsym.pending, p.verification_code = "EE55")) :=
  poll_characterization sAsym "EE55" "bookY" (by decide) (by decide)

/-! ### C7: checkStatus reveals only exactly-matching records -/

/-- C7: every value revealed by check_purchase comes from a stored record
whose book id and transaction id both equal the query exactly — a purchased
answer carries the confirmed_at of a matching confirmed record, a pending
answer carries the verification code of a matching pending record and only
arises when no confirmed record matches, and a matching confirmed record
always takes priority. -/
theorem check_reveals_only_exact_match
    (s : ServerState) (b t : String) (hb : b ≠ "") (ht : t ≠ "") :
    (∀ ts : Option String,
       check_purchase s (some b) (some t) = CheckResult.purchased ts →
       ∃ p ∈ s.confirmed,
         p.book_id = b ∧ p.transaction_id = t ∧ p.status = "confirmed" ∧
         p.confirmed_at = ts) ∧
    (∀ vc : String,
       check_purchase s (some b) (some t) = CheckResult.pendingWithCode vc →
       ((¬ ∃ p ∈ s.confirmed,
           p.book_id = b ∧ p.transaction_id = t ∧ p.status = "confirmed") ∧
        ∃ p ∈ s.pending,
          p.book_id = b ∧ p.transaction_id = t ∧ p.verification_code = vc)) ∧
    ((∃ p ∈ s.confirmed, p.book_id = b ∧ p.transaction_id = t ∧ p.status = "confirmed") →
      ∃ ts : Option String, check_purchase s (some b) (some t) = CheckResult.purchased ts) := by
  rcases hf : s.confirmed.find? (fun p =>
      p.book_id == b && p.transaction_id == t && p.status == "confirmed") with _ | p
  · have hnE1 : ¬ ∃ p ∈ s.confirmed,
        p.book_id = b ∧ p.transaction_id = t ∧ p.status = "confirmed" := by
      have hall := List.find?_eq_none.mp hf
      rintro ⟨p, hp, e1, e2, e3⟩
      exact hall p hp (by simp [e1, e2, e3])
    rcases hg : s.pending.find? (fun p => p.book_id == b && p.transaction_id == t) with _ | q
    · have hcp : check_purchase s (some b) (some t) = CheckResult.notFound := by
        simp [check_purchase, falsy, hb, ht, hf, hg]
      refine ⟨?_, ?_, ?_⟩
      · intro ts heq; rw [hcp] at heq; cases heq
      · intro vc heq; rw [hcp] at heq; cases heq
      · intro hx; exact absurd hx hnE1
    · have hq := List.find?_some hg
      have hqmem := List.mem_of_find?_eq_some hg
      simp only [Bool.and_eq_true, beq_iff_eq] at hq
      have hcp : check_purchase s (some b) (some t) =
          CheckResult.pendingWithCode q.verification_code := by
        simp [check_purchase, falsy, hb, ht, hf, hg]
      refine ⟨?_, ?_, ?_⟩
      · intro ts heq; rw [hcp] at heq; cases heq
      · intro vc heq; rw [hcp] at heq
        cases heq
        exact ⟨hnE1, q, hqmem, hq.1, hq.2, rfl⟩
      · intro hx; exact absurd hx hnE1
  · have hp := List.find?_some hf
    have hpmem := List.mem_of_find?_eq_some hf
    simp only [Bool.and_eq_true, beq_iff_eq] at hp
    have hcp : check_purchase s (some b) (some t) =
        CheckResult.purchased p.confirmed_at := by
      simp [check_purchase, falsy, hb, ht, hf]
    refine ⟨?_, ?_, ?_⟩
    · intro ts heq; rw [hcp] at heq
      cases heq
      exact ⟨p, hpmem, hp.1.1, hp.1.2, hp.2, rfl⟩
    · intro vc heq; rw [hcp] at heq; cases heq
    · intro hx; exact ⟨p.confirmed_at, hcp⟩

/-- Witness for C7 on the mixed state. -/
theorem check_reveals_only_exact_match_witness :
    (∀ ts : Option String,
       check_purchase sCheck (some "b1") (some "t2") = CheckResult.purchased ts →
       ∃ p ∈ sCheck.confirmed,
         p.book_id = "b1" ∧ p.transaction_id = "t2" ∧ p.status = "confirmed" ∧
         p.confirmed_at = ts) ∧
    (∀ vc : String,
       check_purchase sCheck (some "b1") (some "t2") = CheckResult.pendingWithCode vc →
       ((¬ ∃ p ∈ sCheck.confirmed,
           p.book_id = "b1" ∧ p.transaction_id = "t2" ∧ p.status = "confirmed") ∧
        ∃ p ∈ sCheck.pending,
          p.book_id = "b1" ∧ p.transaction_id = "t2" ∧ p.verification_code = vc)) ∧
    ((∃ p ∈ sCheck.confirmed,
        p.book_id = "b1" ∧ p.transaction_id = "t2" ∧ p.status = "confirmed") →
      ∃ ts : Option String,
        check_purchase sCheck (some "b1") (some "t2") = CheckResult.purchased ts) :=
  check_reveals_only_exact_match sCheck "b1" "t2" (by decide) (by decide)

/-! ### Shape of a single step, and monotonicity of the stats -/

theorem falsy_eq_false (o : Option String) (h : falsy o = false) :
    ∃ v : String, o = some v ∧ v ≠ "" := by
  rcases o with _ | v
  · simp [falsy] at h
  · exact ⟨v, rfl, by simpa [falsy] using h⟩

theorem stepOp_shape (s : ServerState) (op : Op) :
    stepOp s op = s ∨
    (∃ b : String, ∃ pr : Option Int, ∃ t c n : String,
        op = Op.submit (some b) pr (some t) c n ∧
        stepOp s op =
          { s with pending := s.pending ++ [mkPendingRecord c b (pr.getD 0) t n] }) ∨
    (∃ r ∈ s.pending, ∃ c n : String,
        stepOp s op =
          { pending := s.pending.filter (fun p => !(p.verification_code == c)),
            confirmed :=
              s.confirmed ++ [{ r with status := "confirmed", confirmed_at := some n }],
            stats := update_stats s.stats r.book_id r.price }) ∨
    (∃ c : String,
        stepOp s op =
          { s with pending := s.pending.filter (fun p => !(p.verification_code == c)) }) ∨
    (∃ bk : String, ∃ bs2 : BookStats,
        (getBook s.stats.books bk).total_downloads ≤ bs2.total_downloads ∧
        (getBook s.stats.books bk).free_downloads ≤ bs2.free_downloads ∧
        (getBook s.stats.books bk).paid_downloads ≤ bs2.paid_downloads ∧
        bs2.revenue = (getBook s.stats.books bk).revenue ∧
        stepOp s op =
          { s with stats := { s.stats with books := setBook s.stats.books bk bs2 } }) := by
  cases op with
  | submit b p t c n =>
      by_cases hm : (falsy b || falsy t) = true
      · left
        show (request_purchase s b p t c n).snd = s
        simp [request_purchase, hm]
      · have hmf := Bool.or_eq_false_iff.mp (Bool.eq_false_iff.mpr hm)
        obtain ⟨bs, rfl, hbs⟩ := falsy_eq_false b hmf.1
        obtain ⟨ts, rfl, hts⟩ := falsy_eq_false t hmf.2
        by_cases hd : (s.confirmed.any (fun pu => pu.transaction_id == ts)) = true
        · left
          show (request_purchase s (some bs) p (some ts) c n).snd = s
          simp [request_purchase, falsy, hbs, hts, hd]
        · simp only [Bool.not_eq_true] at hd
          refine Or.inr (Or.inl ⟨bs, p, ts, c, n, rfl, ?_⟩)
          show (request_purchase s (some bs) p (some ts) c n).snd = _
          simp [request_purchase, falsy, hbs, hts, hd]
  | confirm vc ak n =>
      by_cases hak : ak = some ADMIN_KEY
      · subst hak
        by_cases hfv : falsy vc = true
        · left
          show (verify_purchase s vc (some ADMIN_KEY) n).snd = s
          unfold verify_purchase verify_purchase_core
          simp [hfv, applyWrites]
        · obtain ⟨c, rfl, hc⟩ := falsy_eq_false vc (Bool.eq_false_iff.mpr hfv)
          rcases hl : (s.pending.filter (fun p => p.verification_code == c)).getLast?
            with _ | r
          · left
            show (verify_purchase s (some c) (some ADMIN_KEY) n).snd = s
            unfold verify_purchase verify_purchase_core
            simp [falsy, hc, hl, applyWrites]
          · refine Or.inr (Or.inr (Or.inl
              ⟨r, List.mem_of_mem_filter (List.mem_of_mem_getLast? hl), c, n, ?_⟩))
            show (verify_purchase s (some c) (some ADMIN_KEY) n).snd = _
            rw [verify_purchase_ok s c n r hc hl]
      · left
        show (verify_purchase s vc ak n).snd = s
        unfold verify_purchase verify_purchase_core
        simp [hak, applyWrites]
  | reject vc ak =>
      by_cases hak : ak = some ADMIN_KEY
      · subst hak
        by_cases hfv : falsy vc = true
        · left
          show (reject_purchase s vc (some ADMIN_KEY)).snd = s
          simp [reject_purchase, hfv]
        · obtain ⟨c, rfl, hc⟩ := falsy_eq_false vc (Bool.eq_false_iff.mpr hfv)
          by_cases hlen :
              (s.pending.filter (fun p => !(p.verification_code == c))).length =
                s.pending.length
          · left
            show (reject_purchase s (some c) (some ADMIN_KEY)).snd = s
            simp [reject_purchase, falsy, hc, hlen]
          · refine Or.inr (Or.inr (Or.inr (Or.inl ⟨c, ?_⟩)))
            show (reject_purchase s (some c) (some ADMIN_KEY)).snd = _
            simp [reject_purchase, falsy, hc, hlen]
      · left
        show (reject_purchase s vc ak).snd = s
        simp [reject_purchase, hak]
  | track b f =>
      by_cases hm : falsy b = true
      · left
        show (track_download s b f).snd = s
        simp [track_download, hm]
      · obtain ⟨bk, rfl, hbk⟩ := falsy_eq_false b (Bool.eq_false_iff.mpr hm)
        by_cases hf : f.getD false = true
        · refine Or.inr (Or.inr (Or.inr (Or.inr ⟨bk,
            { getBook s.stats.books bk with
                total_downloads := (getBook s.stats.books bk).total_downloads + 1,
                free_downloads := (getBook s.stats.books bk).free_downloads + 1 },
            Nat.le_succ _, Nat.le_succ _, le_refl _, rfl, ?_⟩)))
          show (track_download s (some bk) f).snd = _
          simp [track_download, falsy, hbk, hf]
        · refine Or.inr (Or.inr (Or.inr (Or.inr ⟨bk,
            { getBook s.stats.books bk with
                total_downloads := (getBook s.stats.books bk).total_downloads + 1,
                paid_downloads := (getBook s.stats.books bk).paid_downloads + 1 },
            Nat.le_succ _, le_refl _, Nat.le_succ _, rfl, ?_⟩)))
          show (track_download s (some bk) f).snd = _
          simp only [Bool.not_eq_true] at hf
          simp [track_download, falsy, hbk, hf]

theorem countersLE_refl (a : Stats) : countersLE a a :=
  ⟨fun _ => ⟨le_refl _, le_refl _, le_refl _⟩, le_refl _⟩

theorem countersLE_trans {a b c : Stats} (h1 : countersLE a b) (h2 : countersLE b c) :
    countersLE a c := by
  refine ⟨fun k => ?_, le_trans h1.2 h2.2⟩
  obtain ⟨x1, x2, x3⟩ := h1.1 k
  obtain ⟨y1, y2, y3⟩ := h2.1 k
  exact ⟨le_trans x1 y1, le_trans x2 y2, le_trans x3 y3⟩

theorem bookLE_refl (a : BookStats) : bookLE a a :=
  ⟨le_refl _, le_refl _, le_refl _, le_refl _⟩

theorem statsLE_refl (a : Stats) : statsLE a a :=
  ⟨fun _ => bookLE_refl _, le_refl _, le_refl _⟩

theorem statsLE_trans {a b c : Stats} (h1 : statsLE a b) (h2 : statsLE b c) :
    statsLE a c := by
  refine ⟨fun k => ?_, le_trans h1.2.1 h2.2.1, le_trans h1.2.2 h2.2.2⟩
  obtain ⟨x1, x2, x3, x4⟩ := h1.1 k
  obtain ⟨y1, y2, y3, y4⟩ := h2.1 k
  exact ⟨le_trans x1 y1, le_trans x2 y2, le_trans x3 y3, le_trans x4 y4⟩

theorem stepOp_counters (s : ServerState) (op : Op) :
    countersLE s.stats (stepOp s op).stats := by
  rcases stepOp_shape s op with h | ⟨b, pr, t, c, n, _, h⟩ | ⟨r, hr, c, n, h⟩ |
    ⟨c, h⟩ | ⟨bk, bs2, h1, h2, h3, _, h⟩
  · rw [h]; exact countersLE_refl _
  · rw [h]; exact countersLE_refl _
  · rw [h]
    refine ⟨fun k => ?_, ?_⟩
    · show _ ≤ (getBook (update_stats s.stats r.book_id r.price).books k).total_downloads ∧
        _ ≤ (getBook (update_stats s.stats r.book_id r.price).books k).free_downloads ∧
        _ ≤ (getBook (update_stats s.stats r.book_id r.price).books k).paid_downloads
      by_cases hk : k = r.book_id
      · subst hk
        rw [update_stats_book_self]
        exact ⟨le_refl _, le_refl _, Nat.le_succ _⟩
      · rw [update_stats_book_ne _ _ _ _ hk]
        exact ⟨le_refl _, le_refl _, le_refl _⟩
    · show s.stats.total_purchases ≤ (update_stats s.stats r.book_id r.price).total_purchases
      rw [(update_stats_totals s.stats r.book_id r.price).1]
      exact Nat.le_succ _
  · rw [h]; exact countersLE_refl _
  · rw [h]
    refine ⟨fun k => ?_, le_refl _⟩
    show _ ≤ (getBook (setBook s.stats.books bk bs2) k).total_downloads ∧
      _ ≤ (getBook (setBook s.stats.books bk bs2) k).free_downloads ∧
      _ ≤ (getBook (setBook s.stats.books bk bs2) k).paid_downloads
    by_cases hk : k = bk
    · subst hk
      rw [getBook_setBook_self]
      exact ⟨h1, h2, h3⟩
    · rw [getBook_setBook_ne _ _ _ _ hk]
      exact ⟨le_refl _, le_refl _, le_refl _⟩

theorem stepOp_nonneg (s : ServerState) (op : Op) (h1 : pendingNonneg s)
    (h2 : opPriceNonneg op) :
    pendingNonneg (stepOp s op) ∧ statsLE s.stats (stepOp s op).stats := by
  rcases stepOp_shape s op with h | ⟨b, pr, t, c, n, hop, h⟩ | ⟨r, hr, c, n, h⟩ |
    ⟨c, h⟩ | ⟨bk, bs2, hc1, hc2, hc3, hc4, h⟩
  · rw [h]; exact ⟨h1, statsLE_refl _⟩
  · rw [h]
    refine ⟨?_, statsLE_refl _⟩
    intro q hq
    rcases List.mem_append.mp hq with hq | hq
    · exact h1 q hq
    · have hq2 : q = mkPendingRecord c b (pr.getD 0) t n := List.mem_singleton.mp hq
      subst hq2
      subst hop
      exact h2
  · rw [h]
    have hpr : (0:Int) ≤ r.price := h1 r hr
    refine ⟨?_, fun k => ?_, ?_, ?_⟩
    · intro q hq
      exact h1 q (List.mem_of_mem_filter hq)
    · show bookLE _ (getBook (update_stats s.stats r.book_id r.price).books k)
      by_cases hk : k = r.book_id
      · subst hk
        rw [update_stats_book_self]
        exact ⟨le_refl _, le_refl _, Nat.le_succ _, le_add_of_nonneg_right hpr⟩
      · rw [update_stats_book_ne _ _ _ _ hk]
        exact bookLE_refl _
    · show s.stats.total_revenue ≤ (update_stats s.stats r.book_id r.price).total_revenue
      rw [(update_stats_totals s.stats r.book_id r.price).2]
      exact le_add_of_nonneg_right hpr
    · show s.stats.total_purchases ≤ (update_stats s.stats r.book_id r.price).total_purchases
      rw [(update_stats_totals s.stats r.book_id r.price).1]
      exact Nat.le_succ _
  · rw [h]
    exact ⟨fun q hq => h1 q (List.mem_of_mem_filter hq), statsLE_refl _⟩
  · rw [h]
    refine ⟨h1, fun k => ?_, le_refl _, le_refl _⟩
    show bookLE _ (getBook (setBook s.stats.books bk bs2) k)
    by_cases hk : k = bk
    · subst hk
      rw [getBook_setBook_self]
      exact ⟨hc1, hc2, hc3, le_of_eq hc4.symm⟩
    · rw [getBook_setBook_ne _ _ _ _ hk]
      exact bookLE_refl _

theorem runOps_counters (ops : List Op) :
    ∀ s : ServerState, countersLE s.stats (runOps s ops).stats := by
  induction ops with
  | nil => intro s; exact countersLE_refl _
  | cons op rest ih =>
      intro s
      exact countersLE_trans (stepOp_counters s op) (ih (stepOp s op))

theorem runOps_statsLE (ops : List Op) :
    ∀ s : ServerState, pendingNonneg s → (∀ op ∈ ops, opPriceNonneg op) →
      statsLE s.stats (runOps s ops).stats := by
  induction ops with
  | nil => intro s _ _; exact statsLE_refl _
  | cons op rest ih =>
      intro s h1 h2
      have hs := stepOp_nonneg s op h1 (h2 op (List.mem_cons_self op rest))
      exact statsLE_trans hs.2 (ih (stepOp s op) hs.1
        (fun o ho => h2 o (List.mem_cons_of_mem _ ho)))

/-! ### C8: monotonicity of the aggregate counters -/

/-- C8 counterexample: the handlers never validate the price, so confirming
a purchase submitted with price -5 strictly decreases both the per-item
revenue and the global total_revenue. -/
theorem negative_price_decreases_revenue :
    ((verify_purchase sNeg (some "AA11") (some ADMIN_KEY) "T1").snd.stats.total_revenue
      < sNeg.stats.total_revenue) ∧
    ((getBook (verify_purchase sNeg (some "AA11") (some ADMIN_KEY) "T1").snd.stats.books
        "b1").revenue < (getBook sNeg.stats.books "b1").revenue) := by
  decide

/-- C8 (amended): across every sequence of operations the download counters
(total_downloads, free_downloads, paid_downloads, global total_purchases)
never decrease; the revenue totals also never decrease provided every
already-pending record and every submitted price is non-negative — without
that proviso a confirm of a negative-price submission decreases revenue,
since the code never validates the price. -/
theorem stats_monotone (s : ServerState) (ops : List Op) :
    countersLE s.stats (runOps s ops).stats ∧
    (pendingNonneg s → (∀ op ∈ ops, opPriceNonneg op) →
      statsLE s.stats (runOps s ops).stats) :=
  ⟨runOps_counters ops s, fun h1 h2 => runOps_statsLE ops s h1 h2⟩

/-- A concrete request sequence: submit at price 5, confirm it, track one
free download. -/
def opsW : List Op :=
  [Op.submit (some "b1") (some 5) (some "t1") "AA11" "T0",
   Op.confirm (some "AA11") (some ADMIN_KEY) "T1",
   Op.track (some "b1") (some true)]

/-- Witness for C8 on a concrete run from the initial state. -/
theorem stats_monotone_witness :
    countersLE initialState.stats (runOps initialState opsW).stats ∧
    statsLE initialState.stats (runOps initialState opsW).stats := by
  have h := stats_monotone initialState opsW
  refine ⟨h.1, h.2 ?_ ?_⟩
  · intro p hp
    exact absurd hp (List.not_mem_nil p)
  · intro op hop
    rcases List.mem_cons.mp hop with rfl | hop
    · show (0:Int) ≤ (some (5:Int)).getD 0
      decide
    · rcases List.mem_cons.mp hop with rfl | hop
      · trivial
      · rcases List.mem_cons.mp hop with rfl | hop
        · trivial
        · exact absurd hop (List.not_mem_nil op)

/-! ### C1: each attempt lives in exactly one collection -/

/-- C1 counterexample: with two pending records sharing code DD77 (the code
generator never checks for collisions), a single confirm completes
successfully, yet the first attempt (transaction t1) was never rejected and
ends with a record in neither the pending nor the confirmed collection. -/
theorem collision_confirm_leaves_attempt_in_neither :
    (verify_purchase sColl (some "DD77") (some ADMIN_KEY) "T1").fst =
      ConfirmResult.ok "b2" "t2" ∧
    ((verify_purchase sColl (some "DD77") (some ADMIN_KEY) "T1").snd.pending.any
      (fun p => p.transaction_id == "t1")) = false ∧
    ((verify_purchase sColl (some "DD77") (some ADMIN_KEY) "T1").snd.confirmed.any
      (fun p => p.transaction_id == "t1")) = false := by
  decide

/-- C1 (amended): provided the confirmation code involved is held by exactly
one pending record, every completed operation keeps each attempt in exactly
one of the two collections: a successful submit appends exactly its new
record to pending and leaves confirmed untouched (a failed one changes
nothing); a successful confirm removes exactly the matching record from
pending and appends exactly its confirmed copy to confirmed; a successful
reject deletes exactly the matching record from pending, leaves confirmed
untouched and keeps no residual record.  Without the unique-code proviso a
confirm can leave an attempt in neither collection (see the
counterexample). -/
theorem attempt_in_exactly_one_collection
    (s : ServerState) (bid tid pcode n1 c n2 : String) (pr : Option Int) (r : Purchase)
    (hb : bid ≠ "") (ht : tid ≠ "") (hc : c ≠ "")
    (huniq : s.pending.filter (fun p => p.verification_code == c) = [r]) :
    ((request_purchase s (some bid) pr (some tid) pcode n1).snd = s ∨
      request_purchase s (some bid) pr (some tid) pcode n1 =
        (SubmitResult.ok pcode,
         { s with pending := s.pending ++ [mkPendingRecord pcode bid (pr.getD 0) tid n1] })) ∧
    (∃ s2 : ServerState,
      verify_purchase s (some c) (some ADMIN_KEY) n2 =
        (ConfirmResult.ok r.book_id r.transaction_id, s2) ∧
      s2.pending = s.pending.filter (fun p => !(p.verification_code == c)) ∧
      s2.confirmed =
        s.confirmed ++ [{ r with status := "confirmed", confirmed_at := some n2 }] ∧
      (r :: s2.pending).Perm s.pending) ∧
    (∃ s3 : ServerState,
      reject_purchase s (some c) (some ADMIN_KEY) = (RejectResult.ok, s3) ∧
      s3.pending = s.pending.filter (fun p => !(p.verification_code == c)) ∧
      s3.confirmed = s.confirmed ∧
      (r :: s3.pending).Perm s.pending) := by
  have hperm : (r :: s.pending.filter (fun p => !(p.verification_code == c))).Perm
      s.pending := by
    have h := List.filter_append_perm (fun p => p.verification_code == c) s.pending
    rw [huniq] at h
    simpa using h
  refine ⟨?_, ?_, ?_⟩
  · by_cases hd : (s.confirmed.any (fun pu => pu.transaction_id == tid)) = true
    · left
      simp [request_purchase, falsy, hb, ht, hd]
    · right
      simp only [Bool.not_eq_true] at hd
      simp [request_purchase, falsy, hb, ht, hd]
  · have hlast : (s.pending.filter (fun p => p.verification_code == c)).getLast? = some r := by
      rw [huniq]; rfl
    exact ⟨_, verify_purchase_ok s c n2 r hc hlast, rfl, rfl, hperm⟩
  · have hlen : ¬ ((s.pending.filter (fun p => !(p.verification_code == c))).length =
        s.pending.length) := by
      have h := hperm.length_eq
      simp only [List.length_cons] at h
      omega
    refine ⟨{ s with pending :=
        s.pending.filter (fun p => !(p.verification_code == c)) }, ?_, rfl, rfl, hperm⟩
    simp [reject_purchase, falsy, hc, hlen]

/-- Witness for C1 on the one-record state. -/
theorem attempt_in_exactly_one_collection_witness :
    ((request_purchase sOne (some "b9") (some 3) (some "t9") "P1" "T5").snd = sOne ∨
      request_purchase sOne (some "b9") (some 3) (some "t9") "P1" "T5" =
        (SubmitResult.ok "P1",
         { sOne with pending :=
            sOne.pending ++ [mkPendingRecord "P1" "b9" ((some (3:Int)).getD 0) "t9" "T5"] })) ∧
    (∃ s2 : ServerState,
      verify_purchase sOne (some "AB12") (some ADMIN_KEY) "T6" =
        (ConfirmResult.ok "b1" "t1", s2) ∧
      s2.pending = sOne.pending.filter (fun p => !(p.verification_code == "AB12")) ∧
      s2.confirmed =
        sOne.confirmed ++ [{ rOne with status := "confirmed", confirmed_at := some "T6" }] ∧
      (rOne :: s2.pending).Perm sOne.pending) ∧
    (∃ s3 : ServerState,
      reject_purchase sOne (some "AB12") (some ADMIN_KEY) = (RejectResult.ok, s3) ∧
      s3.pending = sOne.pending.filter (fun p => !(p.verification_code == "AB12")) ∧
      s3.confirmed = sOne.confirmed ∧
      (rOne :: s3.pending).Perm sOne.pending) :=
  attempt_in_exactly_one_collection sOne "b9" "t9" "P1" "T5" "AB12" "T6" (some 3) rOne
    (by decide) (by decide) (by decide) (by decide)

end LiveKitaab
